import Mathlib

/-!
Verification development for the mockup composition engine in
`mockup_cli/cli.py`.  The Python code is shallowly embedded: 8-bit RGBA
rasters become `Raster` (a width, a height and a row-major pixel list),
Python floats become exact rationals, and the Pillow / OpenCV resampling
kernels (LANCZOS resize, expanding rotation, perspective warp), whose
pixel-level output the engine never inspects, are uninterpreted
parameters bundled in `Prims`.  Fallible code returns `Except`, and the
two rendering entry points are additionally instrumented with the list
of image-decode events they perform, so that ordering claims about
validation versus decoding can be stated.
-/

/-- Python's `round` builtin (banker's rounding, round half to even),
on exact rationals. -/
def pyRound (q : ℚ) : ℤ :=
  let n := ⌊q⌋
  let r := q - n
  if r < 1/2 then n
  else if 1/2 < r then n + 1
  else if n % 2 = 0 then n else n + 1

/-- Python's `str.lower` for the ASCII strings the engine compares. -/
def pyLower (s : String) : String :=
  ⟨s.data.map Char.toLower⟩

/-- One 8-bit RGBA pixel. -/
structure RGBA where
  r : Fin 256
  g : Fin 256
  b : Fin 256
  a : Fin 256
deriving DecidableEq

/-- The fully transparent pixel `(0, 0, 0, 0)`. -/
def transparent : RGBA := ⟨0, 0, 0, 0⟩

/-- One pixel in normalized `[0,1]` rational arithmetic, as produced by
dividing the 8-bit channels by 255 (`np.array(img).astype(np.float32) / 255.0`). -/
structure QPix where
  r : ℚ
  g : ℚ
  b : ℚ
  a : ℚ
deriving DecidableEq

/-- Normalize an 8-bit pixel to `[0,1]` channels. -/
def toQ (p : RGBA) : QPix :=
  ⟨(p.r : ℕ) / 255, (p.g : ℕ) / 255, (p.b : ℕ) / 255, (p.a : ℕ) / 255⟩

/-- Back from a normalized channel to a byte the way `blend_numpy` does:
`np.clip(out * 255.0, 0, 255).astype(np.uint8)` (truncation after clipping). -/
def qFloor (c : ℚ) : Fin 256 :=
  ⟨min 255 (Int.toNat ⌊max 0 (min 255 (c * 255))⌋),
    Nat.lt_succ_of_le (Nat.min_le_left _ _)⟩

/-- Back from a normalized channel to a byte with rounding to nearest,
modelling the fixed-point arithmetic of Pillow's `alpha_composite`. -/
def qRound (c : ℚ) : Fin 256 :=
  ⟨min 255 (Int.toNat ⌊max 0 (min 255 (c * 255)) + 1/2⌋),
    Nat.lt_succ_of_le (Nat.min_le_left _ _)⟩

/-- An RGBA raster: width, height and a row-major pixel list. -/
structure Raster where
  w : ℕ
  h : ℕ
  data : List RGBA
deriving DecidableEq

/-- A raster is well formed when its pixel list has exactly one entry
per coordinate of its `w × h` grid. -/
def Raster.WF (r : Raster) : Prop := r.data.length = r.w * r.h

instance (r : Raster) : Decidable r.WF := by
  unfold Raster.WF; infer_instance

/-- Pixel lookup; coordinates outside the raster read as fully
transparent (the embedding's totalization of out-of-range access). -/
def Raster.get (r : Raster) (x y : ℕ) : RGBA :=
  if x < r.w ∧ y < r.h then r.data.getD (y * r.w + x) transparent
  else transparent

/-- Build a raster of the given size from a pixel function. -/
def mkRaster (w h : ℕ) (f : ℕ → ℕ → RGBA) : Raster :=
  ⟨w, h, (List.range (w * h)).map fun i => f (i % w) (i / w)⟩

/-- The uninterpreted resampling kernels of the image libraries.
`resizePx img w h x y` is the pixel the LANCZOS resize of `img` to
`w × h` puts at `(x, y)` (`Image.resize` always returns the requested
size, which the embedding enforces by construction); `rotate` is
`Image.rotate(angle, expand=True, fillcolor=(0,0,0,0))`; and
`warpPx img quad x y` samples `cv2.warpPerspective` of `img` through the
homography onto the quadrilateral `quad` at `(x, y)`. -/
structure Prims where
  resizePx : Raster → ℕ → ℕ → ℕ → ℕ → RGBA
  rotate : Raster → ℚ → Raster
  warpPx : Raster → List (ℚ × ℚ) → ℕ → ℕ → RGBA

/-- Model of `Image.resize((w, h), resample=LANCZOS)`: requested size, kernel
left uninterpreted. -/
def primResize (p : Prims) (img : Raster) (w h : ℕ) : Raster :=
  mkRaster w h (p.resizePx img w h)

/-- Model of `cv2.warpPerspective(..., dsize=(w, h), ...)`: canvas of the
requested size, sampling left uninterpreted. -/
def primWarp (p : Prims) (img : Raster) (quad : List (ℚ × ℚ)) (w h : ℕ) : Raster :=
  mkRaster w h (p.warpPx img quad)

/-- Model of `ensure_rgba`: every raster of the embedding already carries an
explicit alpha channel, so the conversion is the identity. -/
def ensureRgba (img : Raster) : Raster := img

/-- Model of `resize_with_aspect(img, target_w, target_h, mode)`. -/
def resizeWithAspect (p : Prims) (img : Raster) (target_w target_h : ℤ) (mode : String) : Raster :=
  let src_w := img.w
  let src_h := img.h
  if src_w = 0 ∨ src_h = 0 then img
  else if mode = "stretch" then
    primResize p img (max 1 target_w).toNat (max 1 target_h).toNat
  else
    let scale_w : ℚ := target_w / src_w
    let scale_h : ℚ := target_h / src_h
    let scale := if mode = "cover" then max scale_w scale_h else min scale_w scale_h
    let new_w := (max 1 (pyRound (src_w * scale))).toNat
    let new_h := (max 1 (pyRound (src_h * scale))).toNat
    primResize p img new_w new_h

/-- Model of `rotate_image_rgba(img, rotation_deg)`. -/
def rotateImageRgba (p : Prims) (img : Raster) (rotation_deg : ℚ) : Raster :=
  if |rotation_deg| < 1/1000000 then img
  else p.rotate img rotation_deg

/-- Alpha scaling of one pixel: `a_arr *= opacity` followed by
`np.clip(a_arr, 0, 255).astype(np.uint8)` (truncation). -/
def scaleAlpha (a : Fin 256) (opacity : ℚ) : Fin 256 :=
  ⟨min 255 (Int.toNat ⌊max 0 (min 255 ((a : ℕ) * opacity))⌋),
    Nat.lt_succ_of_le (Nat.min_le_left _ _)⟩

/-- Model of `apply_opacity(img_rgba, opacity)`: clamp to `[0,1]`, identity when
the clamped value is at least `0.999`, otherwise scale only the alpha
channel. -/
def applyOpacity (img : Raster) (opacity : ℚ) : Raster :=
  let o := max 0 (min 1 opacity)
  if 999/1000 ≤ o then img
  else mkRaster img.w img.h fun x y =>
    let p := img.get x y
    ⟨p.r, p.g, p.b, scaleAlpha p.a o⟩

/-- Pillow's `Image.alpha_composite` on one normalized pixel
(`s` over `d`): Porter-Duff over with un-premultiplication of the
result.  A fully transparent source pixel copies the destination pixel
exactly, as in Pillow's C implementation. -/
def alphaCompositePxQ (d s : QPix) : QPix :=
  if s.a = 0 then d
  else
    let outA := s.a + d.a * (1 - s.a)
    ⟨(s.r * s.a + d.r * d.a * (1 - s.a)) / outA,
     (s.g * s.a + d.g * d.a * (1 - s.a)) / outA,
     (s.b * s.a + d.b * d.a * (1 - s.a)) / outA,
     outA⟩

/-- Pillow's `Image.alpha_composite` on one 8-bit pixel. -/
def alphaCompositePx (d s : RGBA) : RGBA :=
  if s.a = 0 then d
  else
    let q := alphaCompositePxQ (toQ d) (toQ s)
    ⟨qRound q.r, qRound q.g, qRound q.b, qRound q.a⟩

/-- Model of `blend_normal(base, overlay) = Image.alpha_composite(base, overlay)`. -/
def blendNormal (base overlay : Raster) : Raster :=
  mkRaster base.w base.h fun x y =>
    alphaCompositePx (base.get x y) (overlay.get x y)

/-- The per-pixel normalized arithmetic of `blend_numpy`: the RGB mixing
function is selected by the mode string (falling back to the overlay's
own color), then `out_rgb = f * o_a + b_rgb * (1 - o_a)` and
`out_a = o_a + b_a * (1 - o_a)`. -/
def blendNumpyPxQ (mode : String) (bp op : QPix) : QPix :=
  let f : ℚ → ℚ → ℚ :=
    if mode = "multiply" then fun x y => x * y
    else if mode = "screen" then fun x y => 1 - (1 - x) * (1 - y)
    else if mode = "overlay" then fun x y => if x ≤ 1/2 then 2 * x * y else 1 - 2 * (1 - x) * (1 - y)
    else if mode = "lighten" then fun x y => max x y
    else if mode = "darken" then fun x y => min x y
    else fun _ y => y
  ⟨f bp.r op.r * op.a + bp.r * (1 - op.a),
   f bp.g op.g * op.a + bp.g * (1 - op.a),
   f bp.b op.b * op.a + bp.b * (1 - op.a),
   op.a + bp.a * (1 - op.a)⟩

/-- Model of `blend_numpy(base, overlay, mode)`. -/
def blendNumpy (base overlay : Raster) (mode : String) : Raster :=
  mkRaster base.w base.h fun x y =>
    let q := blendNumpyPxQ mode (toQ (base.get x y)) (toQ (overlay.get x y))
    ⟨qFloor q.r, qFloor q.g, qFloor q.b, qFloor q.a⟩

/-- A fully transparent canvas, `Image.new("RGBA", size, (0, 0, 0, 0))`. -/
def transparentRaster (w h : ℕ) : Raster :=
  mkRaster w h fun _ _ => transparent

/-- Model of `canvas.alpha_composite(overlay_rgba, dest=(x0, y0))`: composite the
overlay in place onto the canvas with its top-left corner at
`(x0, y0)`, clipped to the canvas. -/
def alphaCompositeDest (canvas overlay : Raster) (x0 y0 : ℤ) : Raster :=
  mkRaster canvas.w canvas.h fun x y =>
    let sx := (x : ℤ) - x0
    let sy := (y : ℤ) - y0
    if 0 ≤ sx ∧ sx < overlay.w ∧ 0 ≤ sy ∧ sy < overlay.h then
      alphaCompositePx (canvas.get x y) (overlay.get sx.toNat sy.toNat)
    else canvas.get x y

/-- Model of `paste_overlay(mockup_rgba, overlay_rgba, center_xy, blend_mode)`. -/
def pasteOverlay (mockup overlay : Raster) (cx cy : ℤ) (blend_mode : String) : Raster :=
  let canvas := alphaCompositeDest (transparentRaster mockup.w mockup.h) overlay
    (pyRound ((cx : ℚ) - (overlay.w : ℚ) / 2)) (pyRound ((cy : ℚ) - (overlay.h : ℚ) / 2))
  let bm := pyLower blend_mode
  if bm = "normal" then blendNormal mockup canvas
  else if bm = "multiply" ∨ bm = "screen" ∨ bm = "overlay" ∨ bm = "lighten" ∨ bm = "darken" then
    blendNumpy mockup canvas bm
  else blendNormal mockup canvas

/-- Model of `RectPlacement`: center-based placement in normalized coordinates. -/
structure RectPlacement where
  center_x_norm : ℚ
  center_y_norm : ℚ
  width_norm : ℚ
  height_norm : ℚ
  rotation_deg : ℚ
deriving DecidableEq

/-- Model of `PerspectivePlacement`: four corners in normalized coordinates. -/
structure PerspectivePlacement where
  quad_norm : List (ℚ × ℚ)
deriving DecidableEq

/-- The `placement` field of a `RenderConfig` holds either shape. -/
inductive Placement where
  | rect (p : RectPlacement)
  | persp (p : PerspectivePlacement)
deriving DecidableEq

/-- Model of `RenderConfig`. -/
structure RenderConfig where
  mode : String
  placement : Placement
  blend_mode : String
  opacity : ℚ
  maintain_aspect : String
deriving DecidableEq

/-- The optional fields of the JSON `placement` sub-dictionary. -/
structure PlacementData where
  center_x_norm : Option ℚ
  center_y_norm : Option ℚ
  width_norm : Option ℚ
  height_norm : Option ℚ
  rotation_deg : Option ℚ
  quad_norm : Option (List (ℚ × ℚ))
deriving DecidableEq

/-- The empty `placement` dictionary, `data.get("placement", {})`. -/
def emptyPlacementData : PlacementData := ⟨none, none, none, none, none, none⟩

/-- The optional fields of the JSON config dictionary fed to
`RenderConfig.from_dict`. -/
structure ConfigData where
  mode : Option String
  placement : Option PlacementData
  blend_mode : Option String
  opacity : Option ℚ
  maintain_aspect : Option String
deriving DecidableEq

/-- Errors the engine can raise: `ValueError` validation failures,
unreadable-image I/O errors, and the runtime errors of indexing a short
quad or failing an `isinstance` assertion. -/
inductive Err where
  | validation (msg : String)
  | ioError
  | indexError
  | assertionError
deriving DecidableEq

/-- Model of `RenderConfig.from_dict(data)`. -/
def fromDict (d : ConfigData) : Except Err RenderConfig :=
  let m := pyLower (d.mode.getD "rect")
  if m = "rect" then
    let p := d.placement.getD emptyPlacementData
    Except.ok
      { mode := m
        placement := Placement.rect
          ⟨p.center_x_norm.getD (1/2), p.center_y_norm.getD (1/2),
           p.width_norm.getD (1/2), p.height_norm.getD (1/2),
           p.rotation_deg.getD 0⟩
        blend_mode := pyLower (d.blend_mode.getD "normal")
        opacity := d.opacity.getD 1
        maintain_aspect := pyLower (d.maintain_aspect.getD "contain") }
  else if m = "perspective" then
    let p := d.placement.getD emptyPlacementData
    match p.quad_norm with
    | none => Except.error (Err.validation "perspective placement requires placement.quad_norm with 4 points")
    | some quad =>
      if quad.length ≠ 4 then
        Except.error (Err.validation "perspective placement requires placement.quad_norm with 4 points")
      else
        Except.ok
          { mode := m
            placement := Placement.persp ⟨quad⟩
            blend_mode := pyLower (d.blend_mode.getD "normal")
            opacity := d.opacity.getD 1
            maintain_aspect := pyLower (d.maintain_aspect.getD "contain") }
  else Except.error (Err.validation ("Unsupported mode: " ++ m))

/-- The observable event of decoding one image file. -/
inductive Ev where
  | decode (path : String)
deriving DecidableEq

/-- The file system seen by `Image.open`: a path either decodes to a
raster or fails to read. -/
def FS : Type := String → Option Raster

/-- The body of `render_one` after both images are decoded: dispatch on
`config.mode`, resolve the placement, and composite. -/
def renderOneCore (p : Prims) (mockup design : Raster) (config : RenderConfig) : Except Err Raster :=
  if config.mode = "rect" then
    match config.placement with
    | Placement.rect rp =>
      let tw := max 1 (pyRound (rp.width_norm * mockup.w))
      let th := max 1 (pyRound (rp.height_norm * mockup.h))
      let cx := pyRound (rp.center_x_norm * mockup.w)
      let cy := pyRound (rp.center_y_norm * mockup.h)
      let resized := resizeWithAspect p design tw th config.maintain_aspect
      let rotated := rotateImageRgba p resized rp.rotation_deg
      let overlay := applyOpacity rotated config.opacity
      Except.ok (pasteOverlay mockup overlay cx cy config.blend_mode)
    | _ => Except.error Err.assertionError
  else if config.mode = "perspective" then
    match config.placement with
    | Placement.persp pp =>
      match pp.quad_norm.get? 0, pp.quad_norm.get? 1, pp.quad_norm.get? 2, pp.quad_norm.get? 3 with
      | some q0, some q1, some q2, some q3 =>
        let quad_px : List (ℚ × ℚ) :=
          [(q0.1 * mockup.w, q0.2 * mockup.h), (q1.1 * mockup.w, q1.2 * mockup.h),
           (q2.1 * mockup.w, q2.2 * mockup.h), (q3.1 * mockup.w, q3.2 * mockup.h)]
        let warped := primWarp p (ensureRgba design) quad_px mockup.w mockup.h
        let overlay := applyOpacity warped config.opacity
        let bm := config.blend_mode
        Except.ok
          (if bm = "normal" then blendNormal mockup overlay
           else if bm = "multiply" ∨ bm = "screen" ∨ bm = "overlay" ∨ bm = "lighten" ∨ bm = "darken" then
             blendNumpy mockup overlay bm
           else blendNormal mockup overlay)
      | _, _, _, _ => Except.error Err.indexError
    | _ => Except.error Err.assertionError
  else Except.error (Err.validation ("Unsupported mode: " ++ config.mode))

/-- Model of `render_one(mockup_path, design_path, config)`, instrumented with
the image-decode events it performs, in order. -/
def renderOneT (p : Prims) (fs : FS) (mockup_path design_path : String) (config : RenderConfig) :
    List Ev × Except Err Raster :=
  match fs mockup_path with
  | none => ([Ev.decode mockup_path], Except.error Err.ioError)
  | some mockup =>
    match fs design_path with
    | none => ([Ev.decode mockup_path, Ev.decode design_path], Except.error Err.ioError)
    | some design =>
      ([Ev.decode mockup_path, Ev.decode design_path],
       renderOneCore p (ensureRgba mockup) (ensureRgba design) config)

/-- Model of `render_one_rect_pixels(...)`, instrumented with decode events. -/
def renderOneRectPixelsT (p : Prims) (fs : FS) (mockup_path design_path : String)
    (center_x_px center_y_px target_width_px target_height_px : ℤ)
    (rotation_deg : ℚ) (maintain_aspect : String) (opacity : ℚ) (blend_mode : String) :
    List Ev × Except Err Raster :=
  match fs mockup_path with
  | none => ([Ev.decode mockup_path], Except.error Err.ioError)
  | some mockup =>
    match fs design_path with
    | none => ([Ev.decode mockup_path, Ev.decode design_path], Except.error Err.ioError)
    | some design =>
      let resized := resizeWithAspect p (ensureRgba design) target_width_px target_height_px maintain_aspect
      let rotated := rotateImageRgba p resized rotation_deg
      let overlay := applyOpacity rotated opacity
      ([Ev.decode mockup_path, Ev.decode design_path],
       Except.ok (pasteOverlay (ensureRgba mockup) overlay center_x_px center_y_px blend_mode))

@[simp]
theorem mkRaster_w (w h : ℕ) (f : ℕ → ℕ → RGBA) : (mkRaster w h f).w = w := rfl

@[simp]
theorem mkRaster_h (w h : ℕ) (f : ℕ → ℕ → RGBA) : (mkRaster w h f).h = h := rfl

theorem mkRaster_get (w h : ℕ) (f : ℕ → ℕ → RGBA) (x y : ℕ) (hx : x < w) (hy : y < h) :
    (mkRaster w h f).get x y = f x y := by
  have hw : 0 < w := by omega
  have hidx : y * w + x < w * h := by
    have h1 : y * w + x < (y + 1) * w := by
      have := Nat.add_mul y 1 w
      omega
    have h2 : (y + 1) * w ≤ h * w := Nat.mul_le_mul_right _ (by omega)
    have h3 : h * w = w * h := Nat.mul_comm _ _
    omega
  unfold mkRaster Raster.get
  simp only [if_pos (And.intro hx hy)]
  have hlen : y * w + x < ((List.range (w * h)).map fun i => f (i % w) (i / w)).length := by
    simpa using hidx
  rw [List.getD_eq_getElem _ _ hlen, List.getElem_map, List.getElem_range]
  have hm : (y * w + x) % w = x := by
    rw [Nat.mul_comm y w, Nat.mul_add_mod, Nat.mod_eq_of_lt hx]
  have hd : (y * w + x) / w = y := by
    rw [Nat.mul_comm y w, Nat.mul_add_div hw, Nat.div_eq_of_lt hx]
    omega
  rw [hm, hd]

theorem mkRaster_get_oob (w h : ℕ) (f : ℕ → ℕ → RGBA) (x y : ℕ) (hxy : ¬(x < w ∧ y < h)) :
    (mkRaster w h f).get x y = transparent := by
  unfold mkRaster Raster.get
  simp only []
  rw [if_neg]
  simpa using hxy

theorem mkRaster_congr (w h : ℕ) (f g : ℕ → ℕ → RGBA) (hfg : ∀ x y, x < w → y < h → f x y = g x y) :
    mkRaster w h f = mkRaster w h g := by
  unfold mkRaster
  congr 1
  apply List.ext_getElem
  · simp
  · intro i h1 h2
    simp only [List.getElem_map, List.getElem_range]
    have hi : i < w * h := by simpa using h1
    have hw : 0 < w := by
      rcases Nat.eq_zero_or_pos w with hz | hp
    
      · subst hz; simp at hi
      · exact hp
    exact hfg _ _ (Nat.mod_lt _ hw) (Nat.div_lt_of_lt_mul (by omega))

theorem mkRaster_get_self (r : Raster) (hr : r.WF) :
    mkRaster r.w r.h (fun x y => r.get x y) = r := by
  unfold mkRaster
  cases r with
  | mk w h data =>
    simp only
    congr 1
    apply List.ext_getElem
    · simpa using hr.symm
    · intro i h1 h2
      simp only [List.getElem_map, List.getElem_range]
      have hi : i < w * h := by simpa using h1
      have hw : 0 < w := by
        rcases Nat.eq_zero_or_pos w with hz | hp
        · subst hz; simp at hi
        · exact hp
      have hx : i % w < w := Nat.mod_lt _ hw
      have hy : i / w < h := Nat.div_lt_of_lt_mul (by omega)
      unfold Raster.get
      simp only [if_pos (And.intro hx hy)]
      have hidx : i / w * w + i % w = i := by
        rw [Nat.mul_comm]
        exact Nat.div_add_mod i w
      rw [hidx]
      exact List.getD_eq_getElem _ _ (by omega)

theorem floor_le_pyRound (q : ℚ) : ⌊q⌋ ≤ pyRound q := by
  simp only [pyRound]
  split_ifs <;> omega

theorem pyRound_le_floor_add_one (q : ℚ) : pyRound q ≤ ⌊q⌋ + 1 := by
  simp only [pyRound]
  split_ifs <;> omega

theorem pyRound_intCast (n : ℤ) : pyRound (n : ℚ) = n := by
  unfold pyRound
  rw [Int.floor_intCast]
  simp

theorem pyRound_le_of_le_int (q : ℚ) (m : ℤ) (hq : q ≤ (m : ℚ)) : pyRound q ≤ m := by
  have hfl : ⌊q⌋ ≤ m := by
    have := Int.floor_le_floor hq
    simpa using this
  rcases eq_or_lt_of_le hfl with heq | hlt
  · have hql : (⌊q⌋ : ℚ) ≤ q := Int.floor_le q
    have hr : q - ⌊q⌋ < 1/2 := by
      rw [heq] at hql ⊢
      have : q - (m : ℚ) ≤ 0 := by linarith
      linarith
    unfold pyRound
    rw [if_pos hr]
    exact hfl
  · have := pyRound_le_floor_add_one q
    omega

theorem int_le_pyRound_of_le (q : ℚ) (m : ℤ) (hq : (m : ℚ) ≤ q) : m ≤ pyRound q := by
  have hfl : m ≤ ⌊q⌋ := Int.le_floor.mpr hq
  have := floor_le_pyRound q
  omega

theorem qFloor_byte (n : Fin 256) : qFloor ((n : ℕ) / 255 : ℚ) = n := by
  have h255 : ((n : ℕ) : ℚ) / 255 * 255 = ((n : ℕ) : ℚ) := by field_simp
  have hle : ((n : ℕ) : ℚ) ≤ 255 := by
    have h2 : (n : ℕ) ≤ 255 := Nat.le_of_lt_succ n.isLt
    exact_mod_cast h2
  have hge : (0 : ℚ) ≤ ((n : ℕ) : ℚ) := by positivity
  apply Fin.ext
  show min 255 (Int.toNat ⌊max 0 (min 255 (((n : ℕ) : ℚ) / 255 * 255))⌋) = (n : ℕ)
  rw [h255, min_eq_right hle, max_eq_right hge, Int.floor_natCast, Int.toNat_natCast]
  have h2 : (n : ℕ) ≤ 255 := Nat.le_of_lt_succ n.isLt
  omega

theorem scaleAlpha_zero (a : Fin 256) : scaleAlpha a 0 = (0 : Fin 256) := by
  unfold scaleAlpha
  apply Fin.ext
  simp

theorem transparentRaster_get (w h x y : ℕ) : (transparentRaster w h).get x y = transparent := by
  unfold transparentRaster
  by_cases hxy : x < w ∧ y < h
  · exact mkRaster_get _ _ _ _ _ hxy.1 hxy.2
  · exact mkRaster_get_oob _ _ _ _ _ hxy

theorem applyOpacity_zero_alpha (img : Raster) (x y : ℕ) :
    ((applyOpacity img 0).get x y).a = 0 := by
  unfold applyOpacity
  have hcl : max (0 : ℚ) (min 1 0) = 0 := by norm_num
  rw [hcl, if_neg (by norm_num)]
  by_cases hxy : x < img.w ∧ y < img.h
  · rw [mkRaster_get _ _ _ _ _ hxy.1 hxy.2]
    exact scaleAlpha_zero _
  · rw [mkRaster_get_oob _ _ _ _ _ hxy]
    rfl

theorem alphaCompositePx_transparent_src (d s : RGBA) (hs : s.a = 0) :
    alphaCompositePx d s = d := by
  unfold alphaCompositePx
  rw [if_pos hs]

theorem alphaCompositeDest_transparent (w h : ℕ) (overlay : Raster) (x0 y0 : ℤ)
    (hov : ∀ x y, (overlay.get x y).a = 0) (x y : ℕ) :
    (alphaCompositeDest (transparentRaster w h) overlay x0 y0).get x y = transparent := by
  unfold alphaCompositeDest
  by_cases hxy : x < w ∧ y < h
  · rw [mkRaster_get _ _ _ _ _ (by simpa using hxy.1) (by simpa using hxy.2)]
    simp only []
    split
    · rw [alphaCompositePx_transparent_src _ _ (hov _ _)]
      exact transparentRaster_get _ _ _ _
    · exact transparentRaster_get _ _ _ _
  · rw [mkRaster_get_oob]
    simpa using hxy

theorem blendNormal_transparent_overlay (base overlay : Raster) (hb : base.WF)
    (hov : ∀ x y, (overlay.get x y).a = 0) :
    blendNormal base overlay = base := by
  unfold blendNormal
  rw [mkRaster_congr base.w base.h _ (fun x y => base.get x y)
    (fun x y _ _ => alphaCompositePx_transparent_src _ _ (hov x y))]
  exact mkRaster_get_self base hb

theorem blendNumpyPxQ_alpha0 (mode : String) (bp op : QPix) (ha : op.a = 0) :
    blendNumpyPxQ mode bp op = ⟨bp.r, bp.g, bp.b, bp.a⟩ := by
  unfold blendNumpyPxQ
  rw [ha]
  simp

theorem blendNumpy_transparent_overlay (base overlay : Raster) (mode : String) (hb : base.WF)
    (hov : ∀ x y, (overlay.get x y).a = 0) :
    blendNumpy base overlay mode = base := by
  unfold blendNumpy
  rw [mkRaster_congr base.w base.h _ (fun x y => base.get x y) ?_]
  · exact mkRaster_get_self base hb
  · intro x y _ _
    have ha : (toQ (overlay.get x y)).a = 0 := by
      unfold toQ
      rw [hov x y]
      norm_num
    rw [blendNumpyPxQ_alpha0 _ _ _ ha]
    unfold toQ
    simp only []
    rw [qFloor_byte, qFloor_byte, qFloor_byte, qFloor_byte]

theorem pasteOverlay_transparent_overlay (mockup overlay : Raster) (cx cy : ℤ) (bm : String)
    (hm : mockup.WF) (hov : ∀ x y, (overlay.get x y).a = 0) :
    pasteOverlay mockup overlay cx cy bm = mockup := by
  simp only [pasteOverlay]
  have hcanvas : ∀ x y, ((alphaCompositeDest (transparentRaster mockup.w mockup.h) overlay
      (pyRound ((cx : ℚ) - (overlay.w : ℚ) / 2)) (pyRound ((cy : ℚ) - (overlay.h : ℚ) / 2))).get x y).a = 0 := by
    intro x y
    rw [alphaCompositeDest_transparent _ _ _ _ _ hov]
    rfl
  split
  · exact blendNormal_transparent_overlay _ _ hm hcanvas
  · split
    · exact blendNumpy_transparent_overlay _ _ _ hm hcanvas
    · exact blendNormal_transparent_overlay _ _ hm hcanvas

/-- A concrete 2×2 opaque background raster used by the witnesses. -/
def bgEx : Raster := ⟨2, 2, [⟨10, 20, 30, 255⟩, ⟨40, 50, 60, 255⟩, ⟨70, 80, 90, 255⟩, ⟨100, 110, 120, 255⟩]⟩

/-- A concrete 1×1 opaque design raster used by the witnesses. -/
def dzEx : Raster := ⟨1, 1, [⟨200, 0, 0, 255⟩]⟩

/-- Concrete (arbitrary) resampling kernels for the witnesses. -/
def primsEx : Prims :=
  ⟨fun _ _ _ _ _ => transparent, fun r _ => r, fun _ _ _ _ => transparent⟩

/-- A concrete file system with one mockup and one design image. -/
def fsEx : FS := fun s =>
  if s = "m.png" then some bgEx else if s = "d.png" then some dzEx else none

/-- A concrete rect placement filling half the background. -/
def rpEx : RectPlacement := ⟨1/2, 1/2, 1/2, 1/2, 0⟩

theorem applyOpacity_congr (img : Raster) (o o' : ℚ)
    (h : max 0 (min 1 o) = max 0 (min 1 o')) :
    applyOpacity img o = applyOpacity img o' := by
  unfold applyOpacity
  rw [h]

theorem clamp_idem (o : ℚ) : max 0 (min 1 (max 0 (min 1 o))) = max 0 (min 1 o) := by
  have h1 : max (0:ℚ) (min 1 o) ≤ 1 := max_le (by norm_num) (min_le_left _ _)
  rw [min_eq_right h1, ← max_assoc, max_self]

theorem renderOneRectPixelsT_opacity_congr (p : Prims) (fs : FS) (mp dp : String)
    (cx cy tw th : ℤ) (rot : ℚ) (asp : String) (o o' : ℚ) (bm : String)
    (h : max 0 (min 1 o) = max 0 (min 1 o')) :
    renderOneRectPixelsT p fs mp dp cx cy tw th rot asp o bm =
    renderOneRectPixelsT p fs mp dp cx cy tw th rot asp o' bm := by
  unfold renderOneRectPixelsT
  cases fs mp with
  | none => rfl
  | some mockup =>
    cases fs dp with
    | none => rfl
    | some design =>
      simp only []
      rw [applyOpacity_congr _ _ _ h]

/-- A concrete normalized base pixel with full alpha, for the C3 witness. -/
def bQEx : QPix := ⟨1/2, 1/3, 1/4, 1⟩

/-- A concrete normalized overlay pixel with partial alpha, for the C3 witness. -/
def oQEx : QPix := ⟨1, 0, 1/5, 1/2⟩

/-- C3 counterexample: with `blend_mode = normal` the engine uses Pillow's
`alpha_composite`, which un-premultiplies by the base alpha; on a base pixel
with alpha 0 (rgb 1) under an overlay pixel with rgb 0, alpha 1/2, the result
red channel is 0, not the `over_rgb*over_a + base_rgb*(1-over_a) = 1/2` the
claim asserts for base alpha below 1. -/
theorem C3_counterexample :
    (alphaCompositePxQ ⟨1, 1, 1, 0⟩ ⟨0, 0, 0, 1/2⟩).r ≠
      (0 : ℚ) * (1/2) + 1 * (1 - 1/2) := by
  norm_num [alphaCompositePxQ]

/-- C3 (amended): for blend_mode = normal, whenever the base pixel is fully
opaque, each RGB channel of the composite satisfies
`out_rgb = over_rgb * over_a + base_rgb * (1 - over_a)` in normalized
arithmetic; for base alpha below 1 the engine instead performs full
Porter-Duff over with un-premultiplication. -/
theorem C3_normal_formula_opaque_base (bp op : QPix) (hba : bp.a = 1) :
    (alphaCompositePxQ bp op).r = op.r * op.a + bp.r * (1 - op.a) ∧
    (alphaCompositePxQ bp op).g = op.g * op.a + bp.g * (1 - op.a) ∧
    (alphaCompositePxQ bp op).b = op.b * op.a + bp.b * (1 - op.a) := by
  by_cases h0 : op.a = 0
  · unfold alphaCompositePxQ
    rw [if_pos h0, h0]
    refine ⟨by ring, by ring, by ring⟩
  · simp only [alphaCompositePxQ, if_neg h0, hba]
    have hden : op.a + 1 * (1 - op.a) = (1 : ℚ) := by ring
    rw [hden]
    refine ⟨?_, ?_, ?_⟩ <;> rw [div_one] <;> ring

/-- C3 witness: the amended statement evaluated at a concrete opaque base
pixel and partially transparent overlay pixel. -/
theorem C3_witness :
    (alphaCompositePxQ bQEx oQEx).r = oQEx.r * oQEx.a + bQEx.r * (1 - oQEx.a) ∧
    (alphaCompositePxQ bQEx oQEx).g = oQEx.g * oQEx.a + bQEx.g * (1 - oQEx.a) ∧
    (alphaCompositePxQ bQEx oQEx).b = oQEx.b * oQEx.a + bQEx.b * (1 - oQEx.a) :=
  C3_normal_formula_opaque_base bQEx oQEx rfl

/-- C4: for each supported non-normal blend mode, `blend_numpy` computes per
channel, in normalized arithmetic, the stated mixing function `f`, then
`out_rgb = f * over_a + base_rgb * (1 - over_a)` and
`out_a = over_a + base_a * (1 - over_a)`. -/
theorem C4_blend_numpy_formulas (bp op : QPix) :
    blendNumpyPxQ "multiply" bp op =
      ⟨bp.r * op.r * op.a + bp.r * (1 - op.a),
       bp.g * op.g * op.a + bp.g * (1 - op.a),
       bp.b * op.b * op.a + bp.b * (1 - op.a),
       op.a + bp.a * (1 - op.a)⟩ ∧
    blendNumpyPxQ "screen" bp op =
      ⟨(1 - (1 - bp.r) * (1 - op.r)) * op.a + bp.r * (1 - op.a),
       (1 - (1 - bp.g) * (1 - op.g)) * op.a + bp.g * (1 - op.a),
       (1 - (1 - bp.b) * (1 - op.b)) * op.a + bp.b * (1 - op.a),
       op.a + bp.a * (1 - op.a)⟩ ∧
    blendNumpyPxQ "overlay" bp op =
      ⟨(if bp.r ≤ 1/2 then 2 * bp.r * op.r else 1 - 2 * (1 - bp.r) * (1 - op.r)) * op.a + bp.r * (1 - op.a),
       (if bp.g ≤ 1/2 then 2 * bp.g * op.g else 1 - 2 * (1 - bp.g) * (1 - op.g)) * op.a + bp.g * (1 - op.a),
       (if bp.b ≤ 1/2 then 2 * bp.b * op.b else 1 - 2 * (1 - bp.b) * (1 - op.b)) * op.a + bp.b * (1 - op.a),
       op.a + bp.a * (1 - op.a)⟩ ∧
    blendNumpyPxQ "lighten" bp op =
      ⟨max bp.r op.r * op.a + bp.r * (1 - op.a),
       max bp.g op.g * op.a + bp.g * (1 - op.a),
       max bp.b op.b * op.a + bp.b * (1 - op.a),
       op.a + bp.a * (1 - op.a)⟩ ∧
    blendNumpyPxQ "darken" bp op =
      ⟨min bp.r op.r * op.a + bp.r * (1 - op.a),
       min bp.g op.g * op.a + bp.g * (1 - op.a),
       min bp.b op.b * op.a + bp.b * (1 - op.a),
       op.a + bp.a * (1 - op.a)⟩ :=
  ⟨rfl, rfl, rfl, rfl, rfl⟩

/-- C5: the opacity parameter is clamped to `[0,1]` before use — a render
with opacity `-0.3` equals the same render with `0.0`, a render with
`1.7` equals the same render with `1.0`, and `apply_opacity` agrees with
its clamped form for every opacity, with no call path rejecting an
out-of-range value. -/
theorem C5_opacity_clamped (p : Prims) (fs : FS) (mp dp : String)
    (cx cy tw th : ℤ) (rot : ℚ) (asp bm : String) (img : Raster) :
    renderOneRectPixelsT p fs mp dp cx cy tw th rot asp (-3/10) bm =
      renderOneRectPixelsT p fs mp dp cx cy tw th rot asp 0 bm ∧
    renderOneRectPixelsT p fs mp dp cx cy tw th rot asp (17/10) bm =
      renderOneRectPixelsT p fs mp dp cx cy tw th rot asp 1 bm ∧
    ∀ o : ℚ, applyOpacity img o = applyOpacity img (max 0 (min 1 o)) :=
  ⟨renderOneRectPixelsT_opacity_congr p fs mp dp cx cy tw th rot asp _ _ bm (by norm_num),
   renderOneRectPixelsT_opacity_congr p fs mp dp cx cy tw th rot asp _ _ bm (by norm_num),
   fun o => applyOpacity_congr _ _ _ (clamp_idem o).symm⟩

/-- C6: rotation by any angle of absolute value below the 1e-6 degree
tolerance returns the input raster itself, an exact identity. -/
theorem C6_zero_rotation_identity (p : Prims) (img : Raster) (deg : ℚ)
    (h : |deg| < 1/1000000) : rotateImageRgba p img deg = img := by
  unfold rotateImageRgba
  rw [if_pos h]

/-- C6 witness: rotating the concrete background by 0 degrees is the
identity. -/
theorem C6_witness : rotateImageRgba primsEx bgEx 0 = bgEx :=
  C6_zero_rotation_identity primsEx bgEx 0 (by norm_num)

/-- C1: the config-driven entry (`render_one` with a `RectPlacement`) and the
pixel-driven entry (`render_one_rect_pixels`) produce identical outputs (and
identical decode traces) whenever the pixel-driven call receives the resolved
geometry of the config-driven call: `center = round(center_norm * bg_dim)`,
`target = max(1, round(size_norm * bg_dim))`, and the same rotation, aspect
policy, opacity and blend mode. -/
theorem C1_entry_parity (p : Prims) (fs : FS) (mp dp : String) (bg : Raster)
    (rp : RectPlacement) (bm asp : String) (op : ℚ) (cx cy tw th : ℤ)
    (hbg : fs mp = some bg)
    (hcx : cx = pyRound (rp.center_x_norm * bg.w))
    (hcy : cy = pyRound (rp.center_y_norm * bg.h))
    (htw : tw = max 1 (pyRound (rp.width_norm * bg.w)))
    (hth : th = max 1 (pyRound (rp.height_norm * bg.h))) :
    renderOneT p fs mp dp ⟨"rect", Placement.rect rp, bm, op, asp⟩ =
    renderOneRectPixelsT p fs mp dp cx cy tw th rp.rotation_deg asp op bm := by
  subst hcx hcy htw hth
  unfold renderOneT renderOneRectPixelsT
  rw [hbg]
  cases hdp : fs dp with
  | none => rfl
  | some dz =>
    simp only [renderOneCore, ensureRgba, eq_self_iff_true, if_true]

/-- C1 witness: parity at a concrete 2×2 background, 1×1 design, and the
half-size centered placement. -/
theorem C1_witness :
    renderOneT primsEx fsEx "m.png" "d.png" ⟨"rect", Placement.rect rpEx, "normal", 1, "contain"⟩ =
    renderOneRectPixelsT primsEx fsEx "m.png" "d.png" 1 1 1 1 0 "contain" 1 "normal" :=
  C1_entry_parity primsEx fsEx "m.png" "d.png" bgEx rpEx "normal" "contain" 1 1 1 1 1 rfl
    (by norm_num [pyRound, bgEx, rpEx])
    (by norm_num [pyRound, bgEx, rpEx])
    (by norm_num [pyRound, bgEx, rpEx])
    (by norm_num [pyRound, bgEx, rpEx])

/-- C2: with opacity 0, both modes and every blend mode return an output
pixel-identical to the unmodified background raster. -/
theorem C2_opacity_zero_is_background (p : Prims) (fs : FS) (mp dp : String)
    (bg dz : Raster) (cfg : RenderConfig)
    (hbg : fs mp = some bg) (hdz : fs dp = some dz) (hwf : bg.WF)
    (hop : cfg.opacity = 0)
    (hmode : (cfg.mode = "rect" ∧ ∃ rp, cfg.placement = Placement.rect rp) ∨
      (cfg.mode = "perspective" ∧
        ∃ pp, cfg.placement = Placement.persp pp ∧ pp.quad_norm.length = 4)) :
    (renderOneT p fs mp dp cfg).2 = Except.ok bg := by
  unfold renderOneT
  rw [hbg, hdz]
  simp only [ensureRgba]
  rcases hmode with ⟨hm, rp, hpl⟩ | ⟨hm, pp, hpl, hquad⟩
  · unfold renderOneCore
    rw [hm, if_pos rfl, hpl]
    simp only [hop]
    rw [pasteOverlay_transparent_overlay _ _ _ _ _ hwf (fun x y => applyOpacity_zero_alpha _ x y)]
  · unfold renderOneCore
    rw [hm]
    rw [if_neg (by decide), if_pos rfl, hpl]
    obtain ⟨q0, q1, q2, q3, hq⟩ : ∃ a b c d, pp.quad_norm = [a, b, c, d] := by
      rcases hpp : pp.quad_norm with _ | ⟨a, _ | ⟨b, _ | ⟨c, _ | ⟨d, _ | ⟨e, t⟩⟩⟩⟩⟩ <;> simp_all
    simp only []
    rw [hq, hop]
    simp only [List.get?]
    congr 1
    split
    · exact blendNormal_transparent_overlay _ _ hwf (fun x y => applyOpacity_zero_alpha _ x y)
    · split
      · exact blendNumpy_transparent_overlay _ _ _ hwf (fun x y => applyOpacity_zero_alpha _ x y)
      · exact blendNormal_transparent_overlay _ _ hwf (fun x y => applyOpacity_zero_alpha _ x y)

/-- C2 witness: a concrete rect-mode render at opacity 0 returns the
background. -/
theorem C2_witness :
    (renderOneT primsEx fsEx "m.png" "d.png"
      ⟨"rect", Placement.rect rpEx, "normal", 0, "contain"⟩).2 = Except.ok bgEx :=
  C2_opacity_zero_is_background primsEx fsEx "m.png" "d.png" bgEx dzEx _ rfl rfl (by decide)
    rfl (Or.inl ⟨rfl, rpEx, rfl⟩)

theorem resizeWithAspect_dims (p : Prims) (img : Raster) (tw th : ℤ) (mode : String)
    (h0 : ¬(img.w = 0 ∨ img.h = 0)) (hms : ¬(mode = "stretch")) :
    (resizeWithAspect p img tw th mode).w =
      (max 1 (pyRound (img.w * (if mode = "cover"
        then max ((tw : ℚ) / img.w) ((th : ℚ) / img.h)
        else min ((tw : ℚ) / img.w) ((th : ℚ) / img.h))))).toNat ∧
    (resizeWithAspect p img tw th mode).h =
      (max 1 (pyRound (img.h * (if mode = "cover"
        then max ((tw : ℚ) / img.w) ((th : ℚ) / img.h)
        else min ((tw : ℚ) / img.w) ((th : ℚ) / img.h))))).toNat := by
  unfold resizeWithAspect
  rw [if_neg h0, if_neg hms]
  exact ⟨rfl, rfl⟩

theorem resizeWithAspect_dims_stretch (p : Prims) (img : Raster) (tw th : ℤ)
    (h0 : ¬(img.w = 0 ∨ img.h = 0)) :
    (resizeWithAspect p img tw th "stretch").w = (max 1 tw).toNat ∧
    (resizeWithAspect p img tw th "stretch").h = (max 1 th).toNat := by
  unfold resizeWithAspect
  rw [if_neg h0, if_pos rfl]
  exact ⟨rfl, rfl⟩

/-- C7: with positive source and target dimensions, `contain` produces
dimensions bounded by the target with exact equality on the scale-determining
axis, `cover` produces dimensions at least the target on both axes, and in
both policies each dimension is the nearest-integer rounding of the source
dimension times the common scale factor, floored at one pixel (so the source
aspect ratio is preserved up to that rounding). -/
theorem C7_aspect_fit_dims (p : Prims) (img : Raster) (tw th : ℤ)
    (hsw : 1 ≤ img.w) (hsh : 1 ≤ img.h) (htw : 1 ≤ tw) (hth : 1 ≤ th) :
    (((resizeWithAspect p img tw th "contain").w : ℤ) ≤ tw ∧
     ((resizeWithAspect p img tw th "contain").h : ℤ) ≤ th ∧
     (((resizeWithAspect p img tw th "contain").w : ℤ) = tw ∨
      ((resizeWithAspect p img tw th "contain").h : ℤ) = th) ∧
     ((resizeWithAspect p img tw th "contain").w : ℤ) =
       max 1 (pyRound (img.w * min ((tw : ℚ) / img.w) ((th : ℚ) / img.h))) ∧
     ((resizeWithAspect p img tw th "contain").h : ℤ) =
       max 1 (pyRound (img.h * min ((tw : ℚ) / img.w) ((th : ℚ) / img.h)))) ∧
    (tw ≤ ((resizeWithAspect p img tw th "cover").w : ℤ) ∧
     th ≤ ((resizeWithAspect p img tw th "cover").h : ℤ) ∧
     ((resizeWithAspect p img tw th "cover").w : ℤ) =
       max 1 (pyRound (img.w * max ((tw : ℚ) / img.w) ((th : ℚ) / img.h))) ∧
     ((resizeWithAspect p img tw th "cover").h : ℤ) =
       max 1 (pyRound (img.h * max ((tw : ℚ) / img.w) ((th : ℚ) / img.h)))) := by
  have h0 : ¬(img.w = 0 ∨ img.h = 0) := by omega
  have hswQ : (0 : ℚ) < (img.w : ℚ) := by
    have : 0 < img.w := hsw
    exact_mod_cast this
  have hshQ : (0 : ℚ) < (img.h : ℚ) := by
    have : 0 < img.h := hsh
    exact_mod_cast this
  have hC := resizeWithAspect_dims p img tw th "contain" h0 (by decide)
  rw [if_neg (show ¬("contain" = "cover") by decide)] at hC
  have hV := resizeWithAspect_dims p img tw th "cover" h0 (by decide)
  rw [if_pos rfl] at hV
  have hcwA : (img.w : ℚ) * ((tw : ℚ) / img.w) = (tw : ℚ) := by field_simp
  have hchB : (img.h : ℚ) * ((th : ℚ) / img.h) = (th : ℚ) := by field_simp
  have hminw : (img.w : ℚ) * min ((tw : ℚ) / img.w) ((th : ℚ) / img.h) ≤ (tw : ℚ) := by
    calc (img.w : ℚ) * min ((tw : ℚ) / img.w) ((th : ℚ) / img.h)
        ≤ (img.w : ℚ) * ((tw : ℚ) / img.w) :=
          mul_le_mul_of_nonneg_left (min_le_left _ _) (le_of_lt hswQ)
      _ = (tw : ℚ) := hcwA
  have hminh : (img.h : ℚ) * min ((tw : ℚ) / img.w) ((th : ℚ) / img.h) ≤ (th : ℚ) := by
    calc (img.h : ℚ) * min ((tw : ℚ) / img.w) ((th : ℚ) / img.h)
        ≤ (img.h : ℚ) * ((th : ℚ) / img.h) :=
          mul_le_mul_of_nonneg_left (min_le_right _ _) (le_of_lt hshQ)
      _ = (th : ℚ) := hchB
  have hmaxw : (tw : ℚ) ≤ (img.w : ℚ) * max ((tw : ℚ) / img.w) ((th : ℚ) / img.h) := by
    calc (tw : ℚ) = (img.w : ℚ) * ((tw : ℚ) / img.w) := hcwA.symm
      _ ≤ (img.w : ℚ) * max ((tw : ℚ) / img.w) ((th : ℚ) / img.h) :=
          mul_le_mul_of_nonneg_left (le_max_left _ _) (le_of_lt hswQ)
  have hmaxh : (th : ℚ) ≤ (img.h : ℚ) * max ((tw : ℚ) / img.w) ((th : ℚ) / img.h) := by
    calc (th : ℚ) = (img.h : ℚ) * ((th : ℚ) / img.h) := hchB.symm
      _ ≤ (img.h : ℚ) * max ((tw : ℚ) / img.w) ((th : ℚ) / img.h) :=
          mul_le_mul_of_nonneg_left (le_max_right _ _) (le_of_lt hshQ)
  have hCw : ((resizeWithAspect p img tw th "contain").w : ℤ) =
      max 1 (pyRound (img.w * min ((tw : ℚ) / img.w) ((th : ℚ) / img.h))) := by
    rw [hC.1]
    omega
  have hCh : ((resizeWithAspect p img tw th "contain").h : ℤ) =
      max 1 (pyRound (img.h * min ((tw : ℚ) / img.w) ((th : ℚ) / img.h))) := by
    rw [hC.2]
    omega
  have hVw : ((resizeWithAspect p img tw th "cover").w : ℤ) =
      max 1 (pyRound (img.w * max ((tw : ℚ) / img.w) ((th : ℚ) / img.h))) := by
    rw [hV.1]
    omega
  have hVh : ((resizeWithAspect p img tw th "cover").h : ℤ) =
      max 1 (pyRound (img.h * max ((tw : ℚ) / img.w) ((th : ℚ) / img.h))) := by
    rw [hV.2]
    omega
  refine ⟨⟨?_, ?_, ?_, hCw, hCh⟩, ?_, ?_, hVw, hVh⟩
  · rw [hCw]
    have := pyRound_le_of_le_int _ tw hminw
    exact max_le htw this
  · rw [hCh]
    have := pyRound_le_of_le_int _ th hminh
    exact max_le hth this
  · rcases le_total ((tw : ℚ) / img.w) ((th : ℚ) / img.h) with hab | hba
    · left
      rw [hCw, min_eq_left hab, hcwA, pyRound_intCast, max_eq_right htw]
    · right
      rw [hCh, min_eq_right hba, hchB, pyRound_intCast, max_eq_right hth]
  · rw [hVw]
    have := int_le_pyRound_of_le _ tw hmaxw
    exact le_trans this (le_max_right _ _)
  · rw [hVh]
    have := int_le_pyRound_of_le _ th hmaxh
    exact le_trans this (le_max_right _ _)

/-- C7 witness: the contain/cover dimension facts at a concrete 2×2 source
and 3×5 target box. -/
theorem C7_witness :
    (((resizeWithAspect primsEx bgEx 3 5 "contain").w : ℤ) ≤ 3 ∧
     ((resizeWithAspect primsEx bgEx 3 5 "contain").h : ℤ) ≤ 5 ∧
     (((resizeWithAspect primsEx bgEx 3 5 "contain").w : ℤ) = 3 ∨
      ((resizeWithAspect primsEx bgEx 3 5 "contain").h : ℤ) = 5) ∧
     ((resizeWithAspect primsEx bgEx 3 5 "contain").w : ℤ) =
       max 1 (pyRound (bgEx.w * min ((3 : ℚ) / bgEx.w) ((5 : ℚ) / bgEx.h))) ∧
     ((resizeWithAspect primsEx bgEx 3 5 "contain").h : ℤ) =
       max 1 (pyRound (bgEx.h * min ((3 : ℚ) / bgEx.w) ((5 : ℚ) / bgEx.h)))) ∧
    (3 ≤ ((resizeWithAspect primsEx bgEx 3 5 "cover").w : ℤ) ∧
     5 ≤ ((resizeWithAspect primsEx bgEx 3 5 "cover").h : ℤ) ∧
     ((resizeWithAspect primsEx bgEx 3 5 "cover").w : ℤ) =
       max 1 (pyRound (bgEx.w * max ((3 : ℚ) / bgEx.w) ((5 : ℚ) / bgEx.h))) ∧
     ((resizeWithAspect primsEx bgEx 3 5 "cover").h : ℤ) =
       max 1 (pyRound (bgEx.h * max ((3 : ℚ) / bgEx.w) ((5 : ℚ) / bgEx.h)))) :=
  C7_aspect_fit_dims primsEx bgEx 3 5 (by decide) (by decide) (by decide) (by decide)

/-- A config whose mode string is not recognized by the engine. -/
def cfgBogus : RenderConfig := ⟨"bogus", Placement.rect rpEx, "normal", 1, "contain"⟩

/-- C8 counterexample: calling the engine (`render_one`) directly with an
unsupported mode string decodes BOTH images first — the decode events precede
the validation error, contradicting the claim that the call fails before any
image file is decoded. -/
theorem C8_counterexample :
    renderOneT primsEx fsEx "m.png" "d.png" cfgBogus =
      ([Ev.decode "m.png", Ev.decode "d.png"],
        Except.error (Err.validation ("Unsupported mode: " ++ "bogus"))) := rfl

/-- C8 (amended): unsupported modes and malformed quads are rejected with a
validation error at config-parse time (`from_dict`, which never touches image
files); a direct `render_one` call with an unreadable mockup or design fails
with an I/O error; the decode trace of a `render_one` call is always the
mockup attempt optionally followed by the design attempt, with no retries;
and a direct `render_one` call with an unsupported mode string raises its
validation error only after both images have been decoded. -/
theorem C8_validation_and_io :
    (∀ d : ConfigData,
      pyLower (d.mode.getD "rect") ≠ "rect" →
      pyLower (d.mode.getD "rect") ≠ "perspective" →
      fromDict d = Except.error (Err.validation ("Unsupported mode: " ++ pyLower (d.mode.getD "rect")))) ∧
    (∀ d : ConfigData,
      pyLower (d.mode.getD "rect") = "perspective" →
      ((d.placement.getD emptyPlacementData).quad_norm = none ∨
        ∃ quad, (d.placement.getD emptyPlacementData).quad_norm = some quad ∧ quad.length ≠ 4) →
      fromDict d = Except.error (Err.validation "perspective placement requires placement.quad_norm with 4 points")) ∧
    (∀ (p : Prims) (fs : FS) (mp dp : String) (cfg : RenderConfig),
      fs mp = none →
      renderOneT p fs mp dp cfg = ([Ev.decode mp], Except.error Err.ioError)) ∧
    (∀ (p : Prims) (fs : FS) (mp dp : String) (cfg : RenderConfig) (bg : Raster),
      fs mp = some bg → fs dp = none →
      renderOneT p fs mp dp cfg = ([Ev.decode mp, Ev.decode dp], Except.error Err.ioError)) ∧
    (∀ (p : Prims) (fs : FS) (mp dp : String) (cfg : RenderConfig),
      (renderOneT p fs mp dp cfg).1 = [Ev.decode mp] ∨
      (renderOneT p fs mp dp cfg).1 = [Ev.decode mp, Ev.decode dp]) ∧
    (∀ (p : Prims) (fs : FS) (mp dp : String) (cfg : RenderConfig) (bg dz : Raster),
      fs mp = some bg → fs dp = some dz →
      cfg.mode ≠ "rect" → cfg.mode ≠ "perspective" →
      renderOneT p fs mp dp cfg =
        ([Ev.decode mp, Ev.decode dp],
          Except.error (Err.validation ("Unsupported mode: " ++ cfg.mode)))) := by
  refine ⟨?_, ?_, ?_, ?_, ?_, ?_⟩
  · intro d h1 h2
    unfold fromDict
    rw [if_neg h1, if_neg h2]
  · intro d hm hq
    unfold fromDict
    rw [hm, if_neg (by decide), if_pos rfl]
    simp only []
    rcases hq with hnone | ⟨quad, hsome, hlen⟩
    · rw [hnone]
    · rw [hsome]
      simp only [if_pos hlen]
  · intro p fs mp dp cfg h
    unfold renderOneT
    rw [h]
  · intro p fs mp dp cfg bg h1 h2
    unfold renderOneT
    rw [h1, h2]
  · intro p fs mp dp cfg
    unfold renderOneT
    cases fs mp with
    | none => left; rfl
    | some bg =>
      cases fs dp with
      | none => right; rfl
      | some dz => right; rfl
  · intro p fs mp dp cfg bg dz h1 h2 h3 h4
    unfold renderOneT renderOneCore
    rw [h1, h2]
    simp only [ensureRgba]
    rw [if_neg h3, if_neg h4]

/-- C8 witness: the amended behavior at a concrete unsupported mode and a
concrete readable file system. -/
theorem C8_witness :
    renderOneT primsEx fsEx "m.png" "d.png" ⟨"weird", Placement.rect rpEx, "normal", 1, "contain"⟩ =
      ([Ev.decode "m.png", Ev.decode "d.png"],
        Except.error (Err.validation ("Unsupported mode: " ++ "weird"))) :=
  C8_validation_and_io.2.2.2.2.2 primsEx fsEx "m.png" "d.png"
    ⟨"weird", Placement.rect rpEx, "normal", 1, "contain"⟩ bgEx dzEx rfl rfl
    (by decide) (by decide)

/-- A 1×1 base raster whose pixel is fully transparent red. -/
def baseC : Raster := ⟨1, 1, [⟨255, 0, 0, 0⟩]⟩

/-- A 1×1 overlay raster whose pixel is half-transparent black. -/
def overC : Raster := ⟨1, 1, [⟨0, 0, 0, 128⟩]⟩

theorem blendNumpyPxQ_unrecognized (bp op : QPix) :
    blendNumpyPxQ "weird" bp op =
      ⟨op.r * op.a + bp.r * (1 - op.a),
       op.g * op.a + bp.g * (1 - op.a),
       op.b * op.a + bp.b * (1 - op.a),
       op.a + bp.a * (1 - op.a)⟩ := rfl

theorem blendNumpy_weird_red :
    (((blendNumpy baseC overC "weird").get 0 0).r : ℕ) = 127 := by
  unfold blendNumpy
  rw [mkRaster_get _ _ _ 0 0 (by decide) (by decide)]
  simp only []
  rw [show baseC.get 0 0 = (⟨255, 0, 0, 0⟩ : RGBA) from rfl,
      show overC.get 0 0 = (⟨0, 0, 0, 128⟩ : RGBA) from rfl]
  rw [blendNumpyPxQ_unrecognized]
  show min 255 (Int.toNat ⌊max 0 (min 255
    ((((0 : Fin 256) : ℕ) / 255 * (((128 : Fin 256) : ℕ) / 255 : ℚ) +
      ((255 : Fin 256) : ℕ) / 255 * (1 - ((128 : Fin 256) : ℕ) / 255)) * 255))⌋) = 127
  rw [show ((0 : Fin 256) : ℕ) = 0 from rfl, show ((128 : Fin 256) : ℕ) = 128 from rfl,
      show ((255 : Fin 256) : ℕ) = 255 from rfl]
  norm_num
  rfl

theorem blendNormal_weird_red :
    (((blendNormal baseC overC).get 0 0).r : ℕ) = 0 := by
  unfold blendNormal
  rw [mkRaster_get _ _ _ 0 0 (by decide) (by decide)]
  rw [show baseC.get 0 0 = (⟨255, 0, 0, 0⟩ : RGBA) from rfl,
      show overC.get 0 0 = (⟨0, 0, 0, 128⟩ : RGBA) from rfl]
  unfold alphaCompositePx
  rw [if_neg (by decide)]
  simp only []
  have hq : (alphaCompositePxQ (toQ ⟨255, 0, 0, 0⟩) (toQ ⟨0, 0, 0, 128⟩)).r = 0 := by
    unfold alphaCompositePxQ toQ
    rw [if_neg (by
      show ¬(((128 : Fin 256) : ℕ) / 255 = (0 : ℚ))
      rw [show ((128 : Fin 256) : ℕ) = 128 from rfl]
      norm_num)]
    simp only []
    rw [show ((0 : Fin 256) : ℕ) = 0 from rfl, show ((128 : Fin 256) : ℕ) = 128 from rfl]
    norm_num
  show (qRound (alphaCompositePxQ (toQ ⟨255, 0, 0, 0⟩) (toQ ⟨0, 0, 0, 128⟩)).r : ℕ) = 0
  rw [hq]
  show min 255 (Int.toNat ⌊max 0 (min 255 ((0 : ℚ) * 255)) + 1/2⌋) = 0
  norm_num

/-- C9: the source's two fallback behaviors for an unrecognized blend mode
disagree — the `paste_overlay` dispatch falls back to normal over-compositing
(identical to the `"normal"` branch), while `blend_numpy` itself falls back
to overlay-color passthrough `out_rgb = over_rgb*over_a + base_rgb*(1-over_a)`
with no un-premultiplication, and on a concrete input (transparent red base,
half-transparent black overlay) the two produce different rasters. -/
theorem C9_unrecognized_blend_divergence :
    (∀ bp op : QPix, blendNumpyPxQ "weird" bp op =
      ⟨op.r * op.a + bp.r * (1 - op.a),
       op.g * op.a + bp.g * (1 - op.a),
       op.b * op.a + bp.b * (1 - op.a),
       op.a + bp.a * (1 - op.a)⟩) ∧
    pasteOverlay baseC overC 0 0 "weird" = pasteOverlay baseC overC 0 0 "normal" ∧
    blendNumpy baseC overC "weird" ≠ blendNormal baseC overC := by
  refine ⟨fun bp op => blendNumpyPxQ_unrecognized bp op, rfl, ?_⟩
  intro h
  have hr := congrArg (fun r : Raster => ((r.get 0 0).r : ℕ)) h
  simp only [] at hr
  rw [blendNumpy_weird_red, blendNormal_weird_red] at hr
  exact absurd hr (by decide)

theorem resizeWithAspect_dims_ge_one (p : Prims) (img : Raster) (tw th : ℤ) (mode : String)
    (hw : 1 ≤ img.w) (hh : 1 ≤ img.h) :
    1 ≤ (resizeWithAspect p img tw th mode).w ∧ 1 ≤ (resizeWithAspect p img tw th mode).h := by
  have h0 : ¬(img.w = 0 ∨ img.h = 0) := by omega
  by_cases hst : mode = "stretch"
  · subst hst
    have := resizeWithAspect_dims_stretch p img tw th h0
    omega
  · have := resizeWithAspect_dims p img tw th mode h0 hst
    omega

/-- C10: a pixel-driven render with a non-positive target width or height
raises no error — the call completes with some output raster, and the resolved
overlay dimensions are silently clamped to at least one pixel: `stretch` uses
`max(1, target)` on each axis, while `contain` and `cover` use
`max(1, round(source * scale))` with their respective min/max scale factors. -/
theorem C10_nonpositive_target_clamped (p : Prims) (fs : FS) (mp dp : String)
    (bg dz : Raster) (cx cy tw th : ℤ) (rot : ℚ) (asp : String) (op : ℚ) (bm : String)
    (hbg : fs mp = some bg) (hdz : fs dp = some dz)
    (hw : 1 ≤ dz.w) (hh : 1 ≤ dz.h) (hneg : tw ≤ 0 ∨ th ≤ 0) :
    (∃ r, (renderOneRectPixelsT p fs mp dp cx cy tw th rot asp op bm).2 = Except.ok r) ∧
    1 ≤ (resizeWithAspect p dz tw th asp).w ∧
    1 ≤ (resizeWithAspect p dz tw th asp).h ∧
    (asp = "stretch" →
      (resizeWithAspect p dz tw th asp).w = (max 1 tw).toNat ∧
      (resizeWithAspect p dz tw th asp).h = (max 1 th).toNat) ∧
    (asp = "contain" →
      (resizeWithAspect p dz tw th asp).w =
        (max 1 (pyRound (dz.w * min ((tw : ℚ) / dz.w) ((th : ℚ) / dz.h)))).toNat ∧
      (resizeWithAspect p dz tw th asp).h =
        (max 1 (pyRound (dz.h * min ((tw : ℚ) / dz.w) ((th : ℚ) / dz.h)))).toNat) ∧
    (asp = "cover" →
      (resizeWithAspect p dz tw th asp).w =
        (max 1 (pyRound (dz.w * max ((tw : ℚ) / dz.w) ((th : ℚ) / dz.h)))).toNat ∧
      (resizeWithAspect p dz tw th asp).h =
        (max 1 (pyRound (dz.h * max ((tw : ℚ) / dz.w) ((th : ℚ) / dz.h)))).toNat) := by
  have h0 : ¬(dz.w = 0 ∨ dz.h = 0) := by omega
  refine ⟨?_, (resizeWithAspect_dims_ge_one p dz tw th asp hw hh).1,
    (resizeWithAspect_dims_ge_one p dz tw th asp hw hh).2, ?_, ?_, ?_⟩
  · unfold renderOneRectPixelsT
    rw [hbg, hdz]
    exact ⟨_, rfl⟩
  · intro hst
    subst hst
    exact resizeWithAspect_dims_stretch p dz tw th h0
  · intro hct
    subst hct
    have := resizeWithAspect_dims p dz tw th "contain" h0 (by decide)
    rw [if_neg (show ¬("contain" = "cover") by decide)] at this
    exact this
  · intro hcv
    subst hcv
    have := resizeWithAspect_dims p dz tw th "cover" h0 (by decide)
    rw [if_pos rfl] at this
    exact this

/-- C10 witness: the pixel-driven entry with target width 0 and height -7 on
concrete rasters completes and clamps both resolved dimensions to one pixel. -/
theorem C10_witness :
    (∃ r, (renderOneRectPixelsT primsEx fsEx "m.png" "d.png" 1 1 0 (-7) 0 "contain" 1 "normal").2 =
      Except.ok r) ∧
    1 ≤ (resizeWithAspect primsEx dzEx 0 (-7) "contain").w ∧
    1 ≤ (resizeWithAspect primsEx dzEx 0 (-7) "contain").h ∧
    (resizeWithAspect primsEx dzEx 0 (-7) "contain").w =
      (max 1 (pyRound (dzEx.w * min ((0 : ℚ) / dzEx.w) ((-7 : ℚ) / dzEx.h)))).toNat ∧
    (resizeWithAspect primsEx dzEx 0 (-7) "contain").h =
      (max 1 (pyRound (dzEx.h * min ((0 : ℚ) / dzEx.w) ((-7 : ℚ) / dzEx.h)))).toNat := by
  have h := C10_nonpositive_target_clamped primsEx fsEx "m.png" "d.png" bgEx dzEx 1 1 0 (-7) 0
    "contain" 1 "normal" rfl rfl (by decide) (by decide) (Or.inl (by decide))
  exact ⟨h.1, h.2.1, h.2.2.1, (h.2.2.2.2.1 rfl).1, (h.2.2.2.2.1 rfl).2⟩
